import Mathlib

/-!
Verification of mdbook-linkcheck against its natural-language specification.

The definitions below are a shallow embedding of the Rust sources:
text is a `List Char`, byte positions are `Nat`, panics and assertion
failures are `Option.none`, and stateful structures are passed explicitly.
Each definition's doc comment names the Rust item it embeds.
-/

/-- Embeds `ByteIndexMap` from `src/latex.rs` (lines 9-17): a mapping from
positions in the transformed file B back to the original file A, stored as
`(b_i, a_i)` pairs, together with the set of already-rewritten indices of A
(the `HashSet<u32>` is modelled as a duplicate-free list). -/
structure ByteIndexMap where
  mapping : List (Nat × Nat)
  inserted_ranges_a : List Nat
deriving DecidableEq, Repr

/-- Embeds `ByteIndexMap::new` (latex.rs lines 20-25). -/
def ByteIndexMap.new : ByteIndexMap := ⟨[], []⟩

/-- Loop body of `ByteIndexMap::consistency_check` (latex.rs lines 30-46):
walks the mapping with the previous pair, and panics (here: `false`)
when either coordinate decreases. -/
def consistencyCheckAux : Nat → Nat → List (Nat × Nat) → Bool
  | _, _, [] => true
  | prevB, prevA, (b, a) :: rest =>
    if b < prevB || a < prevA then false else consistencyCheckAux b a rest

/-- Embeds `ByteIndexMap::consistency_check` (latex.rs lines 30-46),
starting from the previous pair `(0, 0)`. -/
def ByteIndexMap.consistency_check (m : ByteIndexMap) : Bool :=
  consistencyCheckAux 0 0 m.mapping

/-- Loop body of `ByteIndexMap::resolve` (latex.rs lines 103-116): find the
first pair whose B coordinate exceeds the input, take its predecessor
(`(0, 0)` when there is none) and answer `pos_a + (input_b - pos_b)`. -/
def resolveAux : Nat × Nat → List (Nat × Nat) → Nat → Nat
  | prev, [], input_b => prev.2 + (input_b - prev.1)
  | prev, (b, a) :: rest, input_b =>
    if input_b < b then prev.2 + (input_b - prev.1)
    else resolveAux (b, a) rest input_b

/-- Embeds `ByteIndexMap::resolve` (latex.rs lines 103-116). -/
def ByteIndexMap.resolve (m : ByteIndexMap) (input_b : Nat) : Nat :=
  resolveAux (0, 0) m.mapping input_b

/-- The remap loop at the end of `ByteIndexMap::update` (latex.rs lines
89-98): every pair after the insertion point has its B coordinate replaced
by `b - len_a + len_b`, with the `assert!(updated_b >= prev_b)` modelled as
an abort (`none`). -/
def remapTail (len_a len_b : Nat) : Nat → List (Nat × Nat) → Option (List (Nat × Nat))
  | _, [] => some []
  | prev_b, (b, a) :: rest =>
    let updated_b := b - len_a + len_b
    if updated_b < prev_b then none
    else
      match remapTail len_a len_b updated_b rest with
      | none => none
      | some rest' => some ((updated_b, a) :: rest')

/-- Embeds `ByteIndexMap::update` (latex.rs lines 48-100) up to, but not
including, the final `consistency_check("After update")`.  Every `assert!`
of the original is modelled as returning `none`: `assert!(end >= start)`,
the collision check against `inserted_ranges_a`, the consistency check
before the update, the `assert!(end < *pos_a)` non-overlap check against
the next recorded chunk, `assert!(start >= pos_a)`, `assert!(new_a >=
pos_a)`, `assert!(new_b >= pos_b)` and the assertion inside the remap
loop. -/
def ByteIndexMap.updateRaw (m : ByteIndexMap) (start end_ len_b : Nat) : Option ByteIndexMap :=
  if end_ < start then none
  else if (List.range' start (end_ - start)).any
      (fun i => m.inserted_ranges_a.any (fun j => decide (j = i))) then none
  else if m.consistency_check = false then none
  else
    let inserted := m.inserted_ranges_a ++ List.range' start (end_ - start)
    let insert_ix := m.mapping.findIdx (fun p => decide (start < p.2))
    let okSucc : Bool :=
      match m.mapping.get? insert_ix with
      | some p => decide (end_ < p.2)
      | none => true
    if okSucc = false then none
    else
      let prev : Nat × Nat := if insert_ix = 0 then (0, 0) else m.mapping.getD (insert_ix - 1) (0, 0)
      if start < prev.2 then none
      else
        let new_a := end_
        let new_b := prev.1 + ((start - prev.2) + len_b)
        if new_a < prev.2 then none
        else if new_b < prev.1 then none
        else
          match remapTail (end_ - start) len_b new_b (m.mapping.drop insert_ix) with
          | none => none
          | some tail =>
            some ⟨m.mapping.take insert_ix ++ (new_b, new_a) :: tail, inserted⟩

/-- Embeds `ByteIndexMap::update` (latex.rs lines 48-100): the update body
followed by the final `consistency_check("After update")`, whose panic is
modelled as `none`. -/
def ByteIndexMap.update (m : ByteIndexMap) (start end_ len_b : Nat) : Option ByteIndexMap :=
  match m.updateRaw start end_ len_b with
  | none => none
  | some m' => if m'.consistency_check then some m' else none

/-- Match attempt for the regex `\$\$[^\$]*\$\$` (latex.rs line 154) at the
head of the text: two dollars, a greedy run of non-dollar characters, then
two dollars.  Returns the match length. -/
def tryDoubleDollar : List Char → Option Nat
  | '$' :: '$' :: rest =>
    let run := rest.takeWhile (fun c => decide (c ≠ '$'))
    match rest.drop run.length with
    | '$' :: '$' :: _ => some (2 + run.length + 2)
    | _ => none
  | _ => none

/-- Match attempt for the regex `\$[^\$\n\r]*\$` (latex.rs line 156) at the
head of the text. -/
def trySingleDollar : List Char → Option Nat
  | '$' :: rest =>
    let run := rest.takeWhile (fun c => decide (c ≠ '$' ∧ c ≠ '\n' ∧ c ≠ '\r'))
    match rest.drop run.length with
    | '$' :: _ => some (1 + run.length + 1)
    | _ => none
  | _ => none

/-- Index of the last position `j` such that the list holds `'\\'` at `j`
immediately followed by the closing character `c2`; used for the greedy,
backtracking suffix of the `\(..\)` and `\[..\]` regexes. -/
def lastEscPairIdx (c2 : Char) : List Char → Option Nat
  | [] => none
  | c :: rest =>
    match lastEscPairIdx c2 rest with
    | some j => some (j + 1)
    | none => if c = '\\' ∧ rest.head? = some c2 then some 0 else none

/-- Match attempt for the regex `\\\([^\n\r]*\\\)` (latex.rs line 158): a
literal `\(`, then (greedily) anything up to the last `\)` on the same
line. -/
def tryEscapedParen : List Char → Option Nat
  | '\\' :: '(' :: rest =>
    let run := rest.takeWhile (fun c => decide (c ≠ '\n' ∧ c ≠ '\r'))
    match lastEscPairIdx ')' run with
    | some j => some (2 + j + 2)
    | none => none
  | _ => none

/-- Match attempt for the regex `\\\[(.|\r\n|\r|\n)*\\\]` (latex.rs lines
160-163): a literal `\[`, then (greedily) anything, newlines included, up
to the last `\]` in the text. -/
def tryEscapedBracket : List Char → Option Nat
  | '\\' :: '[' :: rest =>
    match lastEscPairIdx ']' rest with
    | some j => some (2 + j + 2)
    | none => none
  | _ => none

/-- Leftmost, non-overlapping match collection, the semantics of
`Regex::captures_iter` used at latex.rs lines 132-144: try the pattern at
each position, and on a match continue right after it.  The fuel argument
(the remaining text length) makes the recursion structural. -/
def findMatchesAux (tryFn : List Char → Option Nat) : Nat → List Char → Nat → List (Nat × Nat)
  | 0, _, _ => []
  | _ + 1, [], _ => []
  | fuel + 1, s@(_ :: rest), pos =>
    match tryFn s with
    | some len => (pos, pos + len) :: findMatchesAux tryFn fuel (s.drop len) (pos + len)
    | none => findMatchesAux tryFn fuel rest (pos + 1)

/-- All matches `(start, end)` of a pattern in a text, leftmost first. -/
def findMatches (tryFn : List Char → Option Nat) (s : List Char) : List (Nat × Nat) :=
  findMatchesAux tryFn s.length s 0

/-- Rebuild the text after replacing each matched span, the semantics of
`Regex::replace_all` at latex.rs line 150; `cursor` is the end of the
previous match. -/
def replaceMatchesAux (s repl : List Char) : Nat → List (Nat × Nat) → List Char
  | cursor, [] => s.drop cursor
  | cursor, (st, en) :: rest =>
    (s.drop cursor).take (st - cursor) ++ repl ++ replaceMatchesAux s repl en rest

/-- Replace every span of `ms` in `s` by `repl`. -/
def replaceMatches (s : List Char) (ms : List (Nat × Nat)) (repl : List Char) : List Char :=
  replaceMatchesAux s repl 0 ms

/-- Apply the collected `byte_index_map_upds` in order (latex.rs lines
146-149); an aborting update aborts the whole transform. -/
def updsFold : ByteIndexMap → List (Nat × Nat × Nat) → Option ByteIndexMap
  | bim, [] => some bim
  | bim, (s, e, l) :: rest =>
    match bim.update s e l with
    | none => none
    | some bim' => updsFold bim' rest

/-- Embeds the `process_regex` closure of `filter_out_latex` (latex.rs lines
129-151): collect the matches of one pattern on the current text, resolve
their start positions through the current map, record the rewrites, and
replace the matches in the text. -/
def process_regex (st : List Char × ByteIndexMap) (tryFn : List Char → Option Nat)
    (repl : List Char) : Option (List Char × ByteIndexMap) :=
  let src := st.1
  let bim := st.2
  let ms := findMatches tryFn src
  let upds := ms.map (fun p => (bim.resolve p.1, bim.resolve p.1 + (p.2 - p.1), repl.length))
  match updsFold bim upds with
  | none => none
  | some bim' => some (replaceMatches src ms repl, bim')

/-- Embeds `filter_out_latex` (latex.rs lines 121-168): the four patterns
are processed in order, threading the rewritten text and the offset map. -/
def filter_out_latex (src : List Char) : Option (List Char × ByteIndexMap) := do
  let st1 ← process_regex (src, ByteIndexMap.new) tryDoubleDollar
    "LATEX_DOUBLE_DOLLAR_SUBSTITUTED".toList
  let st2 ← process_regex st1 trySingleDollar "LATEX_SINGLE_DOLLAR_SUBSTITUTED".toList
  let st3 ← process_regex st2 tryEscapedParen "LATEX_ESCAPED_PARENTHESIS_SUBSTITUTED".toList
  process_regex st3 tryEscapedBracket "LATEX_ESCAPED_SQUARE_BRACKET_SUBSTITUTED".toList

/-- A text has no transformable (latex/math) region when none of the four
patterns of `filter_out_latex` matches anywhere in it. -/
def noTransformableRegions (src : List Char) : Prop :=
  findMatches tryDoubleDollar src = [] ∧ findMatches trySingleDollar src = [] ∧
    findMatches tryEscapedParen src = [] ∧ findMatches tryEscapedBracket src = []

instance (src : List Char) : Decidable (noTransformableRegions src) := by
  unfold noTransformableRegions
  infer_instance

/-- A pattern with no match leaves both the text and the offset map of
`process_regex` unchanged. -/
theorem process_regex_no_match (src : List Char) (bim : ByteIndexMap)
    (tryFn : List Char → Option Nat) (repl : List Char)
    (h : findMatches tryFn src = []) :
    process_regex (src, bim) tryFn repl = some (src, bim) := by
  simp [process_regex, h, updsFold, replaceMatches, replaceMatchesAux]

/-- Resolving through an empty offset map is the identity. -/
theorem resolve_new_id (b : Nat) : ByteIndexMap.new.resolve b = b := by
  simp [ByteIndexMap.resolve, ByteIndexMap.new, resolveAux]

/-- C1: on a text with no transformable (latex/math) region the
pre-processing transform `filter_out_latex` succeeds, returns the text
unchanged together with the empty offset map, resolving any position
through that map is the identity, and therefore remapping the spans found
by any scanner on the transformed text gives exactly the spans the same
scanner finds on the original text. -/
theorem filter_out_latex_no_latex_roundtrip (src : List Char)
    (h : noTransformableRegions src) :
    filter_out_latex src = some (src, ByteIndexMap.new) ∧
      (∀ b, ByteIndexMap.new.resolve b = b) ∧
      (∀ scanFn : List Char → List (Nat × Nat),
        (scanFn src).map
            (fun p => (ByteIndexMap.new.resolve p.1, ByteIndexMap.new.resolve p.2)) =
          scanFn src) := by
  obtain ⟨h1, h2, h3, h4⟩ := h
  refine ⟨?_, resolve_new_id, ?_⟩
  · simp only [filter_out_latex, Option.bind_eq_bind]
    rw [process_regex_no_match _ _ _ _ h1, Option.some_bind]
    rw [process_regex_no_match _ _ _ _ h2, Option.some_bind]
    rw [process_regex_no_match _ _ _ _ h3, Option.some_bind]
    rw [process_regex_no_match _ _ _ _ h4]
  · intro scanFn
    simp [resolve_new_id]

/-- Witness for C1 at a concrete latex-free text. -/
theorem filter_out_latex_no_latex_roundtrip_witness :
    filter_out_latex "see [a](b.md)".toList =
      some ("see [a](b.md)".toList, ByteIndexMap.new) :=
  (filter_out_latex_no_latex_roundtrip "see [a](b.md)".toList (by decide)).1

/-- C2: an update whose source range `[start, end)` contains an index that a
previous rewrite already covered aborts (`none`); it never records an
overlapping rewrite. -/
theorem update_aborts_on_overlap (m : ByteIndexMap) (start end_ len_b i : Nat)
    (h1 : start ≤ i) (h2 : i < end_) (h3 : i ∈ m.inserted_ranges_a) :
    m.update start end_ len_b = none := by
  have hlt : ¬ end_ < start := by omega
  have hmem : i ∈ List.range' start (end_ - start) := by
    rw [List.mem_range']
    exact ⟨i - start, by omega, by omega⟩
  have hany : (List.range' start (end_ - start)).any
      (fun i => m.inserted_ranges_a.any (fun j => decide (j = i))) = true := by
    rw [List.any_eq_true]
    refine ⟨i, hmem, ?_⟩
    rw [List.any_eq_true]
    exact ⟨i, h3, by simp⟩
  have hraw : m.updateRaw start end_ len_b = none := by
    unfold ByteIndexMap.updateRaw
    rw [if_neg hlt, if_pos hany]
  unfold ByteIndexMap.update
  rw [hraw]

/-- Witness for C2: with indices 2 and 3 already rewritten, an update of the
range `[2, 4)` aborts. -/
theorem update_aborts_on_overlap_witness :
    (⟨[], [2, 3]⟩ : ByteIndexMap).update 2 4 5 = none :=
  update_aborts_on_overlap ⟨[], [2, 3]⟩ 2 4 5 2 (by decide) (by decide) (by decide)

/-- Decides whether consecutive mapping pairs strictly increase in both
coordinates, the property claimed as the `ByteIndexMap` invariant. -/
def strictlyIncreasingPairs : List (Nat × Nat) → Bool
  | [] => true
  | [_] => true
  | p :: q :: rest =>
    (decide (p.1 < q.1) && decide (p.2 < q.2)) && strictlyIncreasingPairs (q :: rest)

/-- Counterexample for C3: two successful updates of the empty region
`[0, 0)` with replacement length 0 both succeed, yet leave the mapping with
two equal consecutive breakpoints, so neither coordinate strictly
increases. -/
theorem update_strict_increase_cex :
    (ByteIndexMap.new.update 0 0 0).bind (fun m => m.update 0 0 0) =
        some ⟨[(0, 0), (0, 0)], []⟩ ∧
      strictlyIncreasingPairs [(0, 0), (0, 0)] = false := by
  exact ⟨by decide, by decide⟩

/-- A passing consistency walk starting at `(pb, pa)` gives a weakly
monotone chain. -/
theorem consistencyCheckAux_chain (l : List (Nat × Nat)) : ∀ pb pa,
    consistencyCheckAux pb pa l = true →
      List.Chain (fun p q : Nat × Nat => p.1 ≤ q.1 ∧ p.2 ≤ q.2) (pb, pa) l := by
  induction l with
  | nil => intro pb pa _; exact List.Chain.nil
  | cons hd tl ih =>
    intro pb pa h
    obtain ⟨b, a⟩ := hd
    unfold consistencyCheckAux at h
    by_cases hc : (b < pb || a < pa : Bool)
    · rw [if_pos hc] at h
      exact absurd h (by simp)
    · rw [if_neg hc] at h
      simp only [Bool.or_eq_true, decide_eq_true_eq, not_or, not_lt] at hc
      exact List.Chain.cons ⟨hc.1, hc.2⟩ (ih b a h)

/-- C3 (amended): after every successful `update` the mapping is weakly
monotone in both coordinates — consecutive breakpoints satisfy
`b_i ≤ b_(i+1)` and `a_i ≤ a_(i+1)`; the strict version of the claim fails
on degenerate updates. -/
theorem update_weak_monotone (m : ByteIndexMap) (start end_ len_b : Nat)
    (m' : ByteIndexMap) (h : m.update start end_ len_b = some m') :
    List.Chain' (fun p q : Nat × Nat => p.1 ≤ q.1 ∧ p.2 ≤ q.2) m'.mapping := by
  have hcc : m'.consistency_check = true := by
    unfold ByteIndexMap.update at h
    split at h
    · exact absurd h (by simp)
    · rename_i mid _
      split at h
      · rename_i hguard
        obtain rfl : mid = m' := Option.some.inj h
        exact hguard
      · exact absurd h (by simp)
  have hchain := consistencyCheckAux_chain m'.mapping 0 0 hcc
  have : List.Chain' (fun p q : Nat × Nat => p.1 ≤ q.1 ∧ p.2 ≤ q.2)
      ((0, 0) :: m'.mapping) := hchain
  exact this.tail

/-- Witness for C3 (amended): a concrete successful update yields a weakly
monotone mapping. -/
theorem update_weak_monotone_witness :
    List.Chain' (fun p q : Nat × Nat => p.1 ≤ q.1 ∧ p.2 ≤ q.2)
      (⟨[(5, 4)], [2, 3]⟩ : ByteIndexMap).mapping :=
  update_weak_monotone ByteIndexMap.new 2 4 3 ⟨[(5, 4)], [2, 3]⟩ (by decide)

/-- ASCII letter test, the first-character rule of a URI scheme. -/
def isAsciiAlpha (c : Char) : Bool := ('a' ≤ c && c ≤ 'z') || ('A' ≤ c && c ≤ 'Z')

/-- Characters allowed in a URI scheme after the first: letters, digits,
`+`, `-` and `.`. -/
def isSchemeChar (c : Char) : Bool :=
  isAsciiAlpha c || c.isDigit || decide (c = '+') || decide (c = '-') || decide (c = '.')

/-- Scheme characters up to the mandatory terminating colon. -/
def schemeTail : List Char → Option (List Char)
  | [] => none
  | c :: rest =>
    if c = ':' then some []
    else if isSchemeChar c then (schemeTail rest).map (fun s => c :: s) else none

/-- Modelled behaviour of the external `url` crate's `Url::parse` as used
by `check_link` (lib.rs line 159, validation.rs line 18): parsing succeeds
exactly when the reference is an absolute URL, i.e. begins with a scheme —
an ASCII letter followed by letters, digits, `+`, `-` or `.`, terminated
by `:` — and the parsed scheme is returned.  Relative references such as
`./foo.md`, `a/b.html` or `#anchor` fail to parse. -/
def parseScheme : List Char → Option (List Char)
  | [] => none
  | c :: rest => if isAsciiAlpha c then (schemeTail rest).map (fun s => c :: s) else none

/-- Whether `Url::parse` succeeds on the reference. -/
def urlParses (url : List Char) : Bool := (parseScheme url).isSome

/-- The scheme of the reference when it parses as an absolute URL. -/
def schemeOf (url : List Char) : Option (List Char) := parseScheme url

/-- The routes `check_link` can take a link down. -/
inductive CheckResult
  | errEmptyLink
  | externalLink
  | okAnchor
  | fsCheck (path : List Char)
deriving DecidableEq, Repr

/-- Embeds `check_link` (validation.rs lines 10-22, identical routing in
lib.rs lines 151-163) together with the head of `check_link_in_book`
(validation.rs lines 55-70): an empty reference is reported as an
`EmptyLink` error; a reference that parses as an absolute URI is routed to
`validate_external_link`; otherwise the link is checked inside the book,
where a reference starting with `#` is an in-page anchor accepted
immediately, and any other reference continues to filesystem-based checks
on its path — the part before the first `#` — modelled opaquely here
because those checks are disk I/O. -/
def check_link_route (url : List Char) : CheckResult :=
  if url = [] then .errEmptyLink
  else if urlParses url then .externalLink
  else if url.head? = some '#' then .okAnchor
  else .fsCheck (url.takeWhile (fun c => decide (c ≠ '#')))

/-- What `validate_external_link` does with a link routed to it. -/
inductive ExternalAction
  | fetchOverNetwork
  | skipped
deriving DecidableEq, Repr

/-- Embeds `validate_external_link` (validation.rs lines 24-31, lib.rs
lines 186-203): when `follow_web_links` is disabled the link is ignored
with `Ok`, otherwise it is fetched over the network with `reqwest::get`,
whatever its scheme. -/
def validate_external_action (follow_web_links : Bool) : ExternalAction :=
  if follow_web_links then .fetchOverNetwork else .skipped

/-- Counterexample for C4: `file:///etc/hosts` parses as a URI with scheme
`file`, which the claim requires to be resolved locally, and
`ftp://example.com/x` has a scheme that the claim requires to be reported
as-is without checking; `check_link` instead routes both to
`validate_external_link`, which fetches them over the network whenever
`follow_web_links` is enabled — there is no local-resolution or
unknown-scheme route for them. -/
theorem check_link_scheme_classification_cex :
    schemeOf "file:///etc/hosts".toList = some "file".toList ∧
      check_link_route "file:///etc/hosts".toList = CheckResult.externalLink ∧
      schemeOf "ftp://example.com/x".toList = some "ftp".toList ∧
      check_link_route "ftp://example.com/x".toList = CheckResult.externalLink ∧
      validate_external_action true = ExternalAction.fetchOverNetwork :=
  ⟨by decide, by decide, by decide, by decide, by decide⟩

/-- C4 (amended): `check_link` classifies every non-empty reference by
URI-parse success alone — it is routed to external-link validation if and
only if it parses as an absolute URI, whatever its scheme, and external
validation fetches it over the network exactly when `follow_web_links` is
set and skips it otherwise; every reference that fails to parse is
resolved locally in the book (as an in-page anchor or through the
filesystem checks), and no other route exists: there is no unknown-scheme
category. -/
theorem check_link_parse_based_classification (url : List Char) (hne : url ≠ []) :
    (check_link_route url = CheckResult.externalLink ↔ urlParses url = true) ∧
      (urlParses url = false →
        check_link_route url = CheckResult.okAnchor ∨
          ∃ path, check_link_route url = CheckResult.fsCheck path) ∧
      validate_external_action true = ExternalAction.fetchOverNetwork ∧
      validate_external_action false = ExternalAction.skipped := by
  have hroute : check_link_route url =
      (if urlParses url then CheckResult.externalLink
        else if url.head? = some '#' then CheckResult.okAnchor
        else CheckResult.fsCheck (url.takeWhile (fun c => decide (c ≠ '#')))) := by
    unfold check_link_route
    rw [if_neg hne]
  refine ⟨?_, ?_, rfl, rfl⟩
  · rw [hroute]
    cases hp : urlParses url
    · rw [if_neg (by simp)]
      constructor
      · intro h
        by_cases hh : url.head? = some '#'
        · rw [if_pos hh] at h
          exact absurd h (by simp)
        · rw [if_neg hh] at h
          exact absurd h (by simp)
      · intro h
        exact absurd h (by simp)
    · rw [if_pos rfl]
      simp
  · intro hp
    rw [hroute, hp]
    rw [if_neg (by simp)]
    by_cases hh : url.head? = some '#'
    · left
      rw [if_pos hh]
    · right
      exact ⟨_, by rw [if_neg hh]⟩

/-- Witness for C4 (amended): the parsed `mailto:` link is routed to
external-link validation and the unparsed relative link `./sibling.md` is
routed to the local filesystem checks. -/
theorem check_link_parse_based_classification_witness :
    ((check_link_route "mailto:user@example.com".toList = CheckResult.externalLink ↔
          urlParses "mailto:user@example.com".toList = true) ∧
        (urlParses "mailto:user@example.com".toList = false →
          check_link_route "mailto:user@example.com".toList = CheckResult.okAnchor ∨
            ∃ path, check_link_route "mailto:user@example.com".toList =
              CheckResult.fsCheck path) ∧
        validate_external_action true = ExternalAction.fetchOverNetwork ∧
        validate_external_action false = ExternalAction.skipped) ∧
      ((check_link_route "./sibling.md".toList = CheckResult.externalLink ↔
          urlParses "./sibling.md".toList = true) ∧
        (urlParses "./sibling.md".toList = false →
          check_link_route "./sibling.md".toList = CheckResult.okAnchor ∨
            ∃ path, check_link_route "./sibling.md".toList =
              CheckResult.fsCheck path) ∧
        validate_external_action true = ExternalAction.fetchOverNetwork ∧
        validate_external_action false = ExternalAction.skipped) :=
  ⟨check_link_parse_based_classification "mailto:user@example.com".toList (by decide),
    check_link_parse_based_classification "./sibling.md".toList (by decide)⟩

/-- Counterexample for C5: the claim covers the empty reference among the
links that are not reported as errors, but `check_link` (validation.rs
lines 13-16, lib.rs lines 154-157) reports the empty link as an
`EmptyLink` error. -/
theorem empty_link_reported_cex :
    check_link_route ([] : List Char) = CheckResult.errEmptyLink := by decide

/-- C5 (amended): a link starting with `#` is an in-page anchor — it fails
URI parsing and `check_link_in_book` accepts it immediately, with no
further validation and no error; the empty link, however, is reported as
an `EmptyLink` error rather than being skipped. -/
theorem anchor_links_not_validated (url : List Char) (h : url.head? = some '#') :
    check_link_route url = CheckResult.okAnchor ∧
      check_link_route ([] : List Char) = CheckResult.errEmptyLink := by
  obtain ⟨rest, rfl⟩ : ∃ rest, url = '#' :: rest := by
    cases url with
    | nil => simp at h
    | cons c rest =>
      refine ⟨rest, ?_⟩
      simp only [List.head?_cons, Option.some.injEq] at h
      rw [h]
  have halpha : isAsciiAlpha '#' = false := by decide
  refine ⟨?_, by decide⟩
  simp [check_link_route, urlParses, parseScheme, halpha]

/-- Witness for C5 (amended) at the concrete anchor `#section`. -/
theorem anchor_links_not_validated_witness :
    check_link_route "#section".toList = CheckResult.okAnchor ∧
      check_link_route ([] : List Char) = CheckResult.errEmptyLink :=
  anchor_links_not_validated "#section".toList (by decide)

/-- The `warning-policy` configuration values (`WarningPolicy` in the
crate). -/
inductive WarningPolicy
  | ignore
  | warn
  | error
deriving DecidableEq, Repr

/-- The severities of `codespan_reporting::diagnostic::Severity`. -/
inductive Severity
  | help
  | note
  | warning
  | error
  | bug
deriving DecidableEq, Repr

/-- Embeds `IncompleteLink` as used by `validate.rs` (destructured at lines
256-260): the reference text, the originating file and the span. -/
structure IncompleteLink where
  reference : String
  file : Nat
  span : Nat × Nat
deriving DecidableEq, Repr

/-- A primary label of a diagnostic: file, span and message. -/
structure Label where
  file : Nat
  span : Nat × Nat
  message : String
deriving DecidableEq, Repr

/-- A `codespan_reporting` `Diagnostic`: severity, message, labels and
notes. -/
structure Diagnostic where
  severity : Severity
  message : String
  labels : List Label
  notes : List String
deriving DecidableEq, Repr

/-- The diagnostic built by the loop body of
`add_incomplete_link_diagnostics` (validate.rs lines 255-275). -/
def incompleteDiag (severity : Severity) (il : IncompleteLink) : Diagnostic :=
  { severity := severity
    message := "Potential incomplete link"
    labels := [⟨il.file, il.span,
      "Did you forget to define a URL for `" ++ il.reference ++ "`?"⟩]
    notes := ["hint: declare the link\x27s URL. For example: `[" ++
      il.reference ++ "]: http://example.com/`"] }

/-- Embeds `ValidationOutcome::add_incomplete_link_diagnostics`
(validate.rs lines 244-276): under the `ignore` policy nothing is emitted;
otherwise every incomplete link becomes one diagnostic whose severity is
selected by the policy, labelled at the link's span, with a note
suggesting how to declare the reference. -/
def add_incomplete_link_diagnostics (warning_policy : WarningPolicy)
    (incomplete_links : List IncompleteLink) : List Diagnostic :=
  match warning_policy with
  | .ignore => []
  | .warn => incomplete_links.map (incompleteDiag Severity.warning)
  | .error => incomplete_links.map (incompleteDiag Severity.error)

/-- C6: diagnostic generation for incomplete references follows the
configured warning policy — no report under `ignore`, exactly one
warning-severity report per reference under `warn`, exactly one
error-severity report per reference under `error` — and every emitted
report carries the note suggesting how to declare the missing reference
definition. -/
theorem incomplete_link_diagnostics_follow_policy (ls : List IncompleteLink) :
    add_incomplete_link_diagnostics WarningPolicy.ignore ls = [] ∧
      (add_incomplete_link_diagnostics WarningPolicy.warn ls).length = ls.length ∧
      (add_incomplete_link_diagnostics WarningPolicy.error ls).length = ls.length ∧
      (add_incomplete_link_diagnostics WarningPolicy.warn ls).map Diagnostic.severity =
        ls.map (fun _ => Severity.warning) ∧
      (add_incomplete_link_diagnostics WarningPolicy.error ls).map Diagnostic.severity =
        ls.map (fun _ => Severity.error) ∧
      (add_incomplete_link_diagnostics WarningPolicy.warn ls).map Diagnostic.notes =
        ls.map (fun il => ["hint: declare the link\x27s URL. For example: `[" ++
          il.reference ++ "]: http://example.com/`"]) ∧
      (add_incomplete_link_diagnostics WarningPolicy.error ls).map Diagnostic.notes =
        ls.map (fun il => ["hint: declare the link\x27s URL. For example: `[" ++
          il.reference ++ "]: http://example.com/`"]) := by
  refine ⟨rfl, ?_, ?_, ?_, ?_, ?_, ?_⟩ <;>
    simp [add_incomplete_link_diagnostics, incompleteDiag, Function.comp_def]

/-- A `linkcheck::Link` as used by `merge_outcomes` (validate.rs lines
176-186): the reference, the originating file and the span within it. -/
structure LcLink where
  href : String
  file : Nat
  span : Nat × Nat
deriving DecidableEq, Repr

/-- A `linkcheck::validation::InvalidLink`: the failing link and its
reason, the latter kept opaque. -/
structure InvalidLink where
  link : LcLink
  reason : String
deriving DecidableEq, Repr

/-- The `linkcheck::validation::Outcomes` consumed by `merge_outcomes`. -/
structure Outcomes where
  valid : List LcLink
  invalid : List InvalidLink
  ignored : List LcLink
  unknown_category : List LcLink
deriving DecidableEq, Repr

/-- The merged `ValidationOutcome` (validate.rs lines 212-225). -/
structure ValidationOutcome where
  valid_links : List LcLink
  invalid_links : List InvalidLink
  ignored : List LcLink
  unknown_category : List LcLink
  incomplete_links : List IncompleteLink
deriving DecidableEq, Repr

/-- The lexicographic `(file, span)` ordering of the sort key used by
`merge_outcomes` (validate.rs lines 180-183), matching the derived Rust
`Ord` on `(FileId, Span)`. -/
def linkKeyLe (a b : Nat × (Nat × Nat)) : Bool :=
  decide (a.1 < b.1) || (decide (a.1 = b.1) &&
    (decide (a.2.1 < b.2.1) || (decide (a.2.1 = b.2.1) && decide (a.2.2 ≤ b.2.2))))

/-- The `sorted` helper of `merge_outcomes` (validate.rs lines 176-185):
a stable sort by the `(file, span)` key, `Vec::sort_by_key` being a stable
merge sort. -/
def sortedByKey {α : Type} (items : List α) (key : α → Nat × (Nat × Nat)) : List α :=
  items.mergeSort (fun x y => linkKeyLe (key x) (key y))

/-- Embeds `merge_outcomes` (validate.rs lines 166-195): the four link
lists of the validation outcomes are sorted by `(file, span)` and the
incomplete links are passed through unchanged. -/
def merge_outcomes (outcomes : Outcomes) (incomplete_links : List IncompleteLink) :
    ValidationOutcome :=
  { invalid_links := sortedByKey outcomes.invalid (fun l => (l.link.file, l.link.span))
    ignored := sortedByKey outcomes.ignored (fun l => (l.file, l.span))
    valid_links := sortedByKey outcomes.valid (fun l => (l.file, l.span))
    unknown_category := sortedByKey outcomes.unknown_category (fun l => (l.file, l.span))
    incomplete_links := incomplete_links }

/-- Decides whether a list of incomplete links is sorted by the
`(file, span)` key. -/
def incompleteSortedByKey : List IncompleteLink → Bool
  | [] => true
  | [_] => true
  | a :: b :: rest =>
    linkKeyLe (a.file, a.span) (b.file, b.span) && incompleteSortedByKey (b :: rest)

/-- Counterexample for C7: `merge_outcomes` passes the incomplete links
through without sorting them, so a merged outcome built from incomplete
references given out of `(file, span)` order keeps them out of order,
contradicting the claim that all five lists of the merged outcome are
sorted. -/
theorem merge_outcomes_incomplete_unsorted_cex :
    (merge_outcomes ⟨[], [], [], []⟩
          [⟨"b", 1, (5, 6)⟩, ⟨"a", 0, (0, 1)⟩]).incomplete_links =
        [⟨"b", 1, (5, 6)⟩, ⟨"a", 0, (0, 1)⟩] ∧
      incompleteSortedByKey [⟨"b", 1, (5, 6)⟩, ⟨"a", 0, (0, 1)⟩] = false :=
  ⟨rfl, by decide⟩

/-- The key ordering is transitive. -/
theorem linkKeyLe_trans (a b c : Nat × (Nat × Nat))
    (hab : linkKeyLe a b = true) (hbc : linkKeyLe b c = true) :
    linkKeyLe a c = true := by
  simp only [linkKeyLe, Bool.or_eq_true, Bool.and_eq_true, decide_eq_true_eq] at *
  omega

/-- The key ordering is total. -/
theorem linkKeyLe_total (a b : Nat × (Nat × Nat)) :
    (linkKeyLe a b || linkKeyLe b a) = true := by
  simp only [linkKeyLe, Bool.or_eq_true, Bool.and_eq_true, decide_eq_true_eq]
  omega

/-- Sorting by key yields a list that is pairwise ordered by the key. -/
theorem sortedByKey_pairwise {α : Type} (items : List α) (key : α → Nat × (Nat × Nat)) :
    List.Pairwise (fun x y => linkKeyLe (key x) (key y) = true) (sortedByKey items key) := by
  unfold sortedByKey
  exact List.sorted_mergeSort
    (fun a b c hab hbc => linkKeyLe_trans (key a) (key b) (key c) hab hbc)
    (fun a b => linkKeyLe_total (key a) (key b)) items

/-- C7 (amended): the merged outcome has its four link lists — valid,
invalid, ignored and unknown-category — each sorted by the
`(originating document, span)` key (so two merges of the same inputs
produce identically ordered outcomes), while the incomplete references are
passed through in their original order, unsorted. -/
theorem merge_outcomes_sorted (outcomes : Outcomes) (ils : List IncompleteLink) :
    List.Pairwise (fun x y : LcLink => linkKeyLe (x.file, x.span) (y.file, y.span) = true)
        (merge_outcomes outcomes ils).valid_links ∧
      List.Pairwise (fun x y : InvalidLink =>
          linkKeyLe (x.link.file, x.link.span) (y.link.file, y.link.span) = true)
        (merge_outcomes outcomes ils).invalid_links ∧
      List.Pairwise (fun x y : LcLink => linkKeyLe (x.file, x.span) (y.file, y.span) = true)
        (merge_outcomes outcomes ils).ignored ∧
      List.Pairwise (fun x y : LcLink => linkKeyLe (x.file, x.span) (y.file, y.span) = true)
        (merge_outcomes outcomes ils).unknown_category ∧
      (merge_outcomes outcomes ils).incomplete_links = ils :=
  ⟨sortedByKey_pairwise _ _, sortedByKey_pairwise _ _, sortedByKey_pairwise _ _,
    sortedByKey_pairwise _ _, rfl⟩

/-- Numeric rank implementing the `PartialOrd` of
`codespan_reporting::diagnostic::Severity`: Bug > Error > Warning > Note >
Help. -/
def severityRank : Severity → Nat
  | .bug => 5
  | .error => 4
  | .warning => 3
  | .note => 2
  | .help => 1

/-- Embeds the exit decision of `main` (bin/mdbook-linkcheck.rs lines
46-52): after reporting, the run returns `Err` — and hence a non-zero
process exit status — exactly when some generated diagnostic satisfies
`diag.severity >= Severity::Error`. -/
def main_exits_nonzero (diags : List Diagnostic) : Bool :=
  diags.any (fun d => decide (severityRank Severity.error ≤ severityRank d.severity))

/-- C8: the process exit status is non-zero iff at least one generated
diagnostic has severity error or higher (error or bug); in particular a
run whose diagnostics are all warnings or lower exits with status zero. -/
theorem exit_nonzero_iff_error_diagnostic (diags : List Diagnostic) :
    main_exits_nonzero diags = true ↔
      ∃ d ∈ diags, d.severity = Severity.error ∨ d.severity = Severity.bug := by
  unfold main_exits_nonzero
  rw [List.any_eq_true]
  constructor
  · rintro ⟨d, hd, hrank⟩
    refine ⟨d, hd, ?_⟩
    rw [decide_eq_true_eq] at hrank
    cases hsev : d.severity <;> rw [hsev] at hrank <;> simp [severityRank] at hrank <;> simp
  · rintro ⟨d, hd, hsev⟩
    refine ⟨d, ?_⟩
    rcases hsev with h | h <;> simp [hd, h, severityRank]

/-- Embeds `CacheEntry` (cache.rs lines 74-78). -/
structure CacheEntry where
  unix_timestamp : Nat
  successful : Bool
deriving DecidableEq, Repr

/-- Embeds `Cache` (cache.rs lines 14-22): the URL-to-entry `BTreeMap`
(modelled as an association list with replace-on-insert) and the hit and
miss counters. -/
structure Cache where
  links : List (String × CacheEntry)
  cache_hits : Nat
  cache_misses : Nat
deriving DecidableEq, Repr

/-- `BTreeMap::get` semantics on the association list. -/
def mapGet : List (String × CacheEntry) → String → Option CacheEntry
  | [], _ => none
  | (k, v) :: rest, url => if k = url then some v else mapGet rest url

/-- `BTreeMap::insert` semantics on the association list: replace the
entry of an existing key, append otherwise. -/
def mapInsert : List (String × CacheEntry) → String → CacheEntry → List (String × CacheEntry)
  | [], url, entry => [(url, entry)]
  | (k, v) :: rest, url, entry =>
    if k = url then (url, entry) :: rest else (k, v) :: mapInsert rest url entry

/-- Embeds `Cache::lookup` (cache.rs lines 36-48): return the entry stored
for the URL, bumping the hit counter when it is present and the miss
counter otherwise; the stored links are not touched. -/
def Cache.lookup (c : Cache) (url : String) : Option CacheEntry × Cache :=
  match mapGet c.links url with
  | some entry => (some entry, { c with cache_hits := c.cache_hits + 1 })
  | none => (none, { c with cache_misses := c.cache_misses + 1 })

/-- Embeds `Cache::insert` (cache.rs lines 50-55): store the entry under
the URL, overwriting any previous entry. -/
def Cache.insert (c : Cache) (url : String) (entry : CacheEntry) : Cache :=
  { c with links := mapInsert c.links url entry }

/-- Inserting a key and reading it back gives the inserted value. -/
theorem mapGet_mapInsert (l : List (String × CacheEntry)) (url : String) (e : CacheEntry) :
    mapGet (mapInsert l url e) url = some e := by
  induction l with
  | nil => simp [mapInsert, mapGet]
  | cons hd tl ih =>
    obtain ⟨k, v⟩ := hd
    by_cases hk : k = url
    · simp [mapInsert, mapGet, hk]
    · simp [mapInsert, mapGet, hk, ih]

/-- C9: cache round-trip — `insert` followed by `lookup` of the same URL
returns the inserted entry, a later `insert` for the same URL overwrites
the earlier entry, and `lookup` never changes the stored URL-to-entry
mapping (it only updates the hit/miss counters). -/
theorem cache_insert_lookup_roundtrip (c : Cache) (url : String) (e1 e2 : CacheEntry) :
    ((c.insert url e1).lookup url).1 = some e1 ∧
      (((c.insert url e1).insert url e2).lookup url).1 = some e2 ∧
      ((c.lookup url).2).links = c.links := by
  refine ⟨?_, ?_, ?_⟩
  · simp [Cache.lookup, Cache.insert, mapGet_mapInsert]
  · simp [Cache.lookup, Cache.insert, mapGet_mapInsert]
  · cases hm : mapGet c.links url <;> simp [Cache.lookup, hm]

/-- Embeds `HashedRegex` (hashed_regex.rs lines 29-38): the source string
together with the compiled regex, the latter modelled as a matcher
function. -/
structure HashedRegex where
  string : String
  re : String → Bool

/-- Embeds `HashedRegex::new` (hashed_regex.rs lines 40-48), parameterized
by the external regex compiler. -/
def HashedRegex.new (compile : String → (String → Bool)) (s : String) : HashedRegex :=
  { string := s, re := compile s }

/-- Embeds `impl PartialEq for HashedRegex` (hashed_regex.rs lines 68-72):
equality compares only the string representation. -/
def hashedRegexEq (a b : HashedRegex) : Bool := a.string == b.string

/-- Embeds `impl Hash for HashedRegex` (hashed_regex.rs lines 62-66),
parameterized by the string hasher: only the string representation is
hashed. -/
def hashedRegexHash (hasher : String → Nat) (r : HashedRegex) : Nat := hasher r.string

/-- C10: two `HashedRegex` values compare equal iff their source strings
are equal, hashing likewise depends only on the source string, and the
patterns `[0-9]*` and `\d*` — which denote the same regular language —
compare unequal whatever the regex compiler produced for them. -/
theorem hashed_regex_eq_iff_strings (a b : HashedRegex) (hasher : String → Nat) :
    (hashedRegexEq a b = true ↔ a.string = b.string) ∧
      hashedRegexHash hasher a = hasher a.string ∧
      (∀ compileA compileB : String → (String → Bool),
        hashedRegexEq (HashedRegex.new compileA "[0-9]*")
          (HashedRegex.new compileB "\\d*") = false) := by
  refine ⟨?_, rfl, ?_⟩
  · simp [hashedRegexEq]
  · intro compileA compileB
    simp [hashedRegexEq, HashedRegex.new]
